import Mathlib

/-!
Verification of the coordinator core of the webrtc load-test repository:
the ramp scheduler (target partitioning and the step loop), the node
registry (admission ids, removal, report recording) and the Prometheus
metrics aggregation (staleness filter, cluster snapshot, drop rate,
per-node pass-through gauges).  All definitions are shallow embeddings of
the JavaScript source; machine numbers carried by telemetry are modelled
as rationals, timestamps in milliseconds as naturals.
-/

namespace WebrtcTest

/-- The fixed load curve FIB_SEQUENCE of the coordinator. -/
def FIB_SEQUENCE : List Nat := [1, 2, 3, 5, 8, 13, 21, 34, 55, 89, 144, 233, 377, 500]

/-- Per-node target computed by the ramp loop: with perNode = floor(total / n)
and rem = total mod n, the node at 0-based position idx gets
perNode + (idx < rem ? 1 : 0). -/
def perNodeTarget (total n idx : Nat) : Nat :=
  total / n + (if idx < total % n then 1 else 0)

/-- The list of targets a ramp step sends to the n live nodes, in registry
(admission) order, as produced by the forEach over nodes in ramp. -/
def rampTargets (total n : Nat) : List Nat :=
  (List.range n).map (perNodeTarget total n)

/-- One pass of the for-of loop in ramp over the enumerated step sequence.
Each iteration consumes the next (index, total) entry; the loop body reads
the current node count (given here as a trace, one count per iteration).
When the node count is zero the body only warns and sleeps before
executing continue, which moves the for-of iterator to the NEXT entry, so
nothing is shipped for that entry; otherwise the entry is shipped.
Returns the (index, total) entries that were actually shipped. -/
def rampRun : List (Nat × Nat) → List Nat → List (Nat × Nat)
  | [], _ => []
  | _ :: _, [] => []
  | st :: rest, c :: cs =>
      if c = 0 then rampRun rest cs else st :: rampRun rest cs

lemma sum_map_range_base (n b r : Nat) :
    ((List.range n).map (fun i => b + if i < r then 1 else 0)).sum = n * b + min r n := by
  induction n with
  | zero => simp
  | succ n ih =>
      rw [List.range_succ, List.map_append, List.sum_append]
      simp only [List.map_cons, List.map_nil, List.sum_cons, List.sum_nil, ih]
      by_cases h : n < r
      · have : min r n = n := by omega
        have h2 : min r (n + 1) = n + 1 := by omega
        simp [h, this, h2]
        ring
      · have : min r n = min r (n + 1) := by omega
        simp [h, ← this]
        ring

lemma rampTargets_length (total n : Nat) : (rampTargets total n).length = n := by
  simp [rampTargets]

lemma rampTargets_getD (total n idx : Nat) (h : idx < n) :
    (rampTargets total n).getD idx 0 = perNodeTarget total n idx := by
  rw [rampTargets, List.getD_eq_getElem?_getD, List.getElem?_map, List.getElem?_range h]
  rfl

/-- C1: for every ramp step with target total T and live node set of size
n ≥ 1 in admission order, the per-node targets sum exactly to T, each
target is base = floor(T / n) or base + 1, and the node at position idx
receives base + 1 exactly when idx < T mod n (the first T mod n nodes). -/
theorem C1_ramp_partition (T n : Nat) (h : 1 ≤ n) :
    (rampTargets T n).sum = T ∧
    (∀ t ∈ rampTargets T n, t = T / n ∨ t = T / n + 1) ∧
    (∀ idx, idx < n → ((rampTargets T n).getD idx 0 = T / n + 1 ↔ idx < T % n)) := by
  refine ⟨?_, ?_, ?_⟩
  · have hmod : T % n < n := Nat.mod_lt _ (by omega)
    have hmin : min (T % n) n = T % n := by omega
    rw [rampTargets,
      show perNodeTarget T n = fun i => T / n + if i < T % n then 1 else 0 from rfl,
      sum_map_range_base n (T / n) (T % n), hmin]
    exact Nat.div_add_mod T n
  · intro t ht
    rw [rampTargets, List.mem_map] at ht
    obtain ⟨i, _, rfl⟩ := ht
    by_cases hi : i < T % n <;> simp [perNodeTarget, hi]
  · intro idx hidx
    rw [rampTargets_getD T n idx hidx]
    by_cases hi : idx < T % n <;> simp [perNodeTarget, hi]

/-- Witness for C1 at the spec scenario T = 8, n = 3 (targets 3, 3, 2). -/
theorem C1_ramp_partition_witness :
    1 ≤ 3 ∧
    ((rampTargets 8 3).sum = 8 ∧
      (∀ t ∈ rampTargets 8 3, t = 8 / 3 ∨ t = 8 / 3 + 1) ∧
      (∀ idx, idx < 3 → ((rampTargets 8 3).getD idx 0 = 8 / 3 + 1 ↔ idx < 8 % 3))) :=
  ⟨by decide, C1_ramp_partition 8 3 (by decide)⟩

/-- C2: the claim says that with zero nodes present when a step is due the
scheduler retries the same step and never advances past it.  Evaluating the
embedded ramp loop on the trace where the node set is empty exactly when
step index 4 (target 8) is due shows the opposite: entry (4, 8) is never
shipped, while the later entry (5, 13) is — the loop advanced past step 4
while no node was present. -/
theorem C2_step_skipped :
    (4, 8) ∉ rampRun FIB_SEQUENCE.enum [1, 1, 1, 1, 0, 1, 1, 1, 1, 1, 1, 1, 1, 1] ∧
    (5, 13) ∈ rampRun FIB_SEQUENCE.enum [1, 1, 1, 1, 0, 1, 1, 1, 1, 1, 1, 1, 1, 1] ∧
    rampRun FIB_SEQUENCE.enum [1, 1, 1, 1, 0, 1, 1, 1, 1, 1, 1, 1, 1, 1] =
      [(0, 1), (1, 2), (2, 3), (3, 5), (5, 13), (6, 21), (7, 34), (8, 55),
       (9, 89), (10, 144), (11, 233), (12, 377), (13, 500)] := by
  refine ⟨by decide, by decide, by decide⟩

/-- The raw telemetry payload of a node, restricted to the fields the
aggregator reads; a missing field is none.  Numeric values are rationals. -/
structure Metrics where
  connected : Option ℚ
  avgStartup : Option ℚ
  avgBitrate : Option ℚ
  avgBuffers : Option ℚ
  avgBufferTime : Option ℚ
  cpu : Option ℚ
  mem : Option ℚ
  clients : Option ℚ
  failures : Option ℚ
deriving DecidableEq

/-- The empty metrics object a node starts with at admission. -/
def Metrics.empty : Metrics :=
  ⟨none, none, none, none, none, none, none, none, none⟩

/-- One registry entry.  ref models the object identity of the node record
(reference equality in the source); id is the numeric part of the
string identifier node-id. -/
structure CNode where
  ref : Nat
  id : Nat
  lastReport : Nat
  metrics : Metrics
deriving DecidableEq

/-- The coordinator registry: the nodes array in admission order, plus a
fresh-reference counter standing for object allocation. -/
structure RegState where
  nodes : List CNode
  nextRef : Nat
deriving DecidableEq

/-- Admission (the connection handler): the new node gets id
nodes.length + 1, lastReport = now and empty metrics, and is pushed at the
end of the array. -/
def admitNode (s : RegState) (now : Nat) : RegState × CNode :=
  let node : CNode :=
    { ref := s.nextRef, id := s.nodes.length + 1, lastReport := now, metrics := Metrics.empty }
  ({ nodes := s.nodes ++ [node], nextRef := s.nextRef + 1 }, node)

/-- Removal (the close handler): nodes = nodes.filter (n ≠ node), with
object identity modelled by ref. -/
def removeNode (s : RegState) (r : Nat) : RegState :=
  { s with nodes := s.nodes.filter (fun n => n.ref != r) }

/-- A run of k consecutive admissions; returns the final state and the list
of assigned numeric ids in admission order. -/
def admitRun : RegState → Nat → Nat → RegState × List Nat
  | s, _, 0 => (s, [])
  | s, now, Nat.succ k =>
      let p := admitNode s now
      let q := admitRun p.1 now k
      (q.1, p.2.id :: q.2)

/-- C3 counterexample: two nodes join, the first disconnects, a third joins;
the third admission is assigned id 2 = node-2, the identifier already given
to the second node (a distinct admission, witnessed by distinct refs).  So
identifiers ARE reused after a disconnect. -/
theorem C3_id_reused :
    ((admitNode (removeNode (admitNode (admitNode ⟨[], 0⟩ 100).1 200).1
        (admitNode ⟨[], 0⟩ 100).2.ref) 300).2).id =
      ((admitNode (admitNode ⟨[], 0⟩ 100).1 200).2).id ∧
    ((admitNode (removeNode (admitNode (admitNode ⟨[], 0⟩ 100).1 200).1
        (admitNode ⟨[], 0⟩ 100).2.ref) 300).2).ref ≠
      ((admitNode (admitNode ⟨[], 0⟩ 100).1 200).2).ref := by
  refine ⟨by decide, by decide⟩

lemma admitRun_ids (s : RegState) (now k : Nat) :
    (admitRun s now k).2 = (List.range k).map (fun j => s.nodes.length + j + 1) := by
  induction k generalizing s with
  | zero => simp [admitRun]
  | succ k ih =>
      rw [admitRun]
      simp only [admitNode, ih, List.length_append, List.length_cons, List.length_nil]
      rw [List.range_succ_eq_map, List.map_cons, List.map_map]
      refine congrArg₂ _ (by omega) (List.map_congr_left ?_)
      intro j _
      simp [Function.comp]
      omega

/-- C3 amended: each admission is assigned id (live count + 1), so in a run
of admissions with no intervening disconnect the assigned identifiers are
exactly node-1, ..., node-k, strictly increasing and never reused. -/
theorem C3_ids_fresh_without_disconnects (now k : Nat) :
    (admitRun ⟨[], 0⟩ now k).2 = (List.range k).map (fun j => j + 1) ∧
    ((admitRun ⟨[], 0⟩ now k).2).Pairwise (· < ·) := by
  have h : (admitRun ⟨[], 0⟩ now k).2 = (List.range k).map (fun j => j + 1) := by
    rw [admitRun_ids]
    refine List.map_congr_left fun j _ => ?_
    simp
  refine ⟨h, ?_⟩
  rw [h]
  exact List.Pairwise.map _ (fun a b hab => by omega) (List.pairwise_lt_range k)

/-- Report handling (the message handler for a report message): the entry
whose object identity matches gets lastReport = now and metrics = m; a ref
that matches no entry (late message after disconnect) leaves the registry
untouched. -/
def recordReport (nodes : List CNode) (r now : Nat) (m : Metrics) : List CNode :=
  nodes.map (fun n => if n.ref = r then { n with lastReport := now, metrics := m } else n)

/-- The staleness-and-validity filter of updatePromMetrics: a node is
active when now - lastReport < 30000 and its metrics carry a connected
field. -/
def isActive (now : Nat) (n : CNode) : Bool :=
  decide (now - n.lastReport < 30000) && n.metrics.connected.isSome

/-- The Prometheus-visible state the aggregator mutates: the six cluster
gauges, the four per-node labelled gauges (none = label never written), and
the module variable lastTotalClients. -/
structure PromState where
  totalClientsGauge : ℚ
  dropRateGauge : ℚ
  avgStartupGauge : ℚ
  avgBitrateGauge : ℚ
  avgBuffersGauge : ℚ
  avgBufferTimeGauge : ℚ
  nodeCpuGauge : Nat → Option ℚ
  nodeMemGauge : Nat → Option ℚ
  nodeClientsGauge : Nat → Option ℚ
  nodeFailuresGauge : Nat → Option ℚ
  lastTotalClients : ℚ

/-- The state at module load: gauges unset, lastTotalClients = 0. -/
def initPromState : PromState :=
  { totalClientsGauge := 0, dropRateGauge := 0, avgStartupGauge := 0, avgBitrateGauge := 0,
    avgBuffersGauge := 0, avgBufferTimeGauge := 0,
    nodeCpuGauge := fun _ => none, nodeMemGauge := fun _ => none,
    nodeClientsGauge := fun _ => none, nodeFailuresGauge := fun _ => none,
    lastTotalClients := 0 }

/-- Sequence of labelled-gauge writes gauge.labels(id).set(v), applied in
list order (a later write to the same label overwrites an earlier one). -/
def setGaugeLabels (g : Nat → Option ℚ) (upds : List (Nat × ℚ)) : Nat → Option ℚ :=
  upds.foldl (fun acc p i => if i = p.1 then some p.2 else acc i) g

/-- The aggregation function updatePromMetrics: filter to active nodes;
return unchanged on an empty active set; otherwise sum connected into
totalClients, sum each QoE figure (a missing field contributes 0 via
getD 0, the m.x or-0 of the source), write the per-node pass-through
gauges for each active node, set the cluster gauges to the sums divided by
the active count, set the drop-rate gauge from the previous total, and
finally update lastTotalClients. -/
def updatePromMetrics (now : Nat) (nodes : List CNode) (s : PromState) : PromState :=
  let active := nodes.filter (isActive now)
  if active.length = 0 then s
  else
    let totalClients := (active.map (fun n => n.metrics.connected.getD 0)).sum
    let sumStartup := (active.map (fun n => n.metrics.avgStartup.getD 0)).sum
    let sumBitrate := (active.map (fun n => n.metrics.avgBitrate.getD 0)).sum
    let sumBuffers := (active.map (fun n => n.metrics.avgBuffers.getD 0)).sum
    let sumBufTime := (active.map (fun n => n.metrics.avgBufferTime.getD 0)).sum
    let A : ℚ := active.length
    let dropRate : ℚ :=
      if 0 < s.lastTotalClients then
        max 0 ((s.lastTotalClients - totalClients) / s.lastTotalClients)
      else 0
    { totalClientsGauge := totalClients
      dropRateGauge := dropRate
      avgStartupGauge := sumStartup / A
      avgBitrateGauge := sumBitrate / A
      avgBuffersGauge := sumBuffers / A
      avgBufferTimeGauge := sumBufTime / A
      nodeCpuGauge :=
        setGaugeLabels s.nodeCpuGauge (active.map fun n => (n.id, n.metrics.cpu.getD 0))
      nodeMemGauge :=
        setGaugeLabels s.nodeMemGauge (active.map fun n => (n.id, n.metrics.mem.getD 0))
      nodeClientsGauge :=
        setGaugeLabels s.nodeClientsGauge (active.map fun n => (n.id, n.metrics.clients.getD 0))
      nodeFailuresGauge :=
        setGaugeLabels s.nodeFailuresGauge (active.map fun n => (n.id, n.metrics.failures.getD 0))
      lastTotalClients := totalClients }

lemma filter_idem {α : Type} (p : α → Bool) (l : List α) :
    (l.filter p).filter p = l.filter p :=
  List.filter_eq_self.mpr fun _a ha => (List.mem_filter.mp ha).2

/-- C5: an aggregation invocation whose active node set is empty returns
with the whole Prometheus state — every cluster gauge, every per-node
gauge and lastTotalClients — identical to its value before the call. -/
theorem C5_empty_active_frame (now : Nat) (nodes : List CNode) (s : PromState)
    (h : nodes.filter (isActive now) = []) :
    updatePromMetrics now nodes s = s := by
  rw [updatePromMetrics]
  simp [h]

/-- Witness for C5 with no node connected. -/
theorem C5_empty_active_frame_witness :
    ([] : List CNode).filter (isActive 0) = [] ∧
    updatePromMetrics 0 [] initPromState = initPromState :=
  ⟨rfl, C5_empty_active_frame 0 [] initPromState rfl⟩

/-- C4: on a non-empty active set the drop-rate gauge is
max 0 ((previousTotal - totalClients) / previousTotal) when the previous
total is positive and 0 when it is zero; growth (totalClients at least the
previous total) always yields 0; and lastTotalClients becomes totalClients
only after the rate was computed from the old value. -/
theorem C4_drop_rate (now : Nat) (nodes : List CNode) (s : PromState)
    (h : nodes.filter (isActive now) ≠ []) :
    (0 < s.lastTotalClients →
      (updatePromMetrics now nodes s).dropRateGauge =
        max 0 ((s.lastTotalClients -
          ((nodes.filter (isActive now)).map (fun n => n.metrics.connected.getD 0)).sum) /
            s.lastTotalClients)) ∧
    (s.lastTotalClients = 0 → (updatePromMetrics now nodes s).dropRateGauge = 0) ∧
    (s.lastTotalClients ≤
        ((nodes.filter (isActive now)).map (fun n => n.metrics.connected.getD 0)).sum →
      (updatePromMetrics now nodes s).dropRateGauge = 0) ∧
    (updatePromMetrics now nodes s).lastTotalClients =
      ((nodes.filter (isActive now)).map (fun n => n.metrics.connected.getD 0)).sum := by
  have hlen : ¬(nodes.filter (isActive now)).length = 0 := by
    simpa [List.length_eq_zero] using h
  simp only [updatePromMetrics, if_neg hlen]
  refine ⟨fun hp => by rw [if_pos hp], fun h0 => by rw [if_neg (by rw [h0]; exact lt_irrefl 0)],
    fun hle => ?_, by trivial⟩
  by_cases hp : 0 < s.lastTotalClients
  · rw [if_pos hp]
    refine max_eq_left (div_nonpos_iff.mpr (Or.inr ⟨by linarith, le_of_lt hp⟩))
  · rw [if_neg hp]

/-- Telemetry payload used in concrete witnesses. -/
def sampleMetrics : Metrics :=
  { connected := some 5, avgStartup := some 120, avgBitrate := some 2500000,
    avgBuffers := some 1, avgBufferTime := some 300, cpu := some 1, mem := some (1/2),
    clients := some 5, failures := some 0 }

/-- A node with a fresh report, used in concrete witnesses. -/
def sampleNode : CNode :=
  { ref := 0, id := 1, lastReport := 1000, metrics := sampleMetrics }

/-- A node whose last report is 40 seconds in the past at time 40000. -/
def staleNode : CNode :=
  { ref := 1, id := 2, lastReport := 0, metrics := sampleMetrics }

/-- Witness for C4 with one active node and previous total 0. -/
theorem C4_drop_rate_witness :
    [sampleNode].filter (isActive 1000) ≠ [] ∧
    ((0 < initPromState.lastTotalClients →
      (updatePromMetrics 1000 [sampleNode] initPromState).dropRateGauge =
        max 0 ((initPromState.lastTotalClients -
          (([sampleNode].filter (isActive 1000)).map
            (fun n => n.metrics.connected.getD 0)).sum) / initPromState.lastTotalClients)) ∧
    (initPromState.lastTotalClients = 0 →
      (updatePromMetrics 1000 [sampleNode] initPromState).dropRateGauge = 0) ∧
    (initPromState.lastTotalClients ≤
        (([sampleNode].filter (isActive 1000)).map (fun n => n.metrics.connected.getD 0)).sum →
      (updatePromMetrics 1000 [sampleNode] initPromState).dropRateGauge = 0) ∧
    (updatePromMetrics 1000 [sampleNode] initPromState).lastTotalClients =
      (([sampleNode].filter (isActive 1000)).map (fun n => n.metrics.connected.getD 0)).sum) :=
  ⟨by decide, C4_drop_rate 1000 [sampleNode] initPromState (by decide)⟩

/-- C6: a node is in the active set at aggregation time exactly when its
last report is less than 30000 ms old and its latest report carries a
connected field; a node 30 or more seconds old is excluded whatever its
stored numbers are; and the aggregation result is fully determined by the
active sublist, so an excluded node contributes nothing (it is neither
summed nor zeroed). -/
theorem C6_staleness_filter (now : Nat) (n : CNode) (nodes : List CNode) (s : PromState) :
    (isActive now n = true ↔
      (now - n.lastReport < 30000 ∧ n.metrics.connected.isSome = true)) ∧
    (30000 ≤ now - n.lastReport → isActive now n = false) ∧
    updatePromMetrics now (nodes.filter (isActive now)) s = updatePromMetrics now nodes s := by
  refine ⟨?_, ?_, ?_⟩
  · simp [isActive]
  · intro hge
    simp [isActive]
    intro hlt
    omega
  · unfold updatePromMetrics
    rw [filter_idem]

/-- Witness for C6: a node whose report is 40 seconds old at time 40000 is
excluded, and filtering before aggregating changes nothing. -/
theorem C6_staleness_filter_witness :
    isActive 40000 staleNode = false ∧
    updatePromMetrics 40000 ([staleNode].filter (isActive 40000)) initPromState =
      updatePromMetrics 40000 [staleNode] initPromState :=
  ⟨(C6_staleness_filter 40000 staleNode [staleNode] initPromState).2.1 (by decide),
   (C6_staleness_filter 40000 staleNode [staleNode] initPromState).2.2⟩

/-- C7: on a non-empty active set of size A, the total-clients gauge is the
sum of the connected counts of the active nodes, and each cluster QoE gauge
is the sum of the corresponding node-level averages divided by A — the
unweighted arithmetic mean; a missing numeric field enters its sum as 0
(the getD 0 below is the or-0 of the source). -/
theorem C7_cluster_snapshot (now : Nat) (nodes : List CNode) (s : PromState)
    (h : nodes.filter (isActive now) ≠ []) :
    (updatePromMetrics now nodes s).totalClientsGauge =
      ((nodes.filter (isActive now)).map (fun n => n.metrics.connected.getD 0)).sum ∧
    (updatePromMetrics now nodes s).avgStartupGauge =
      ((nodes.filter (isActive now)).map (fun n => n.metrics.avgStartup.getD 0)).sum /
        ((nodes.filter (isActive now)).length : ℚ) ∧
    (updatePromMetrics now nodes s).avgBitrateGauge =
      ((nodes.filter (isActive now)).map (fun n => n.metrics.avgBitrate.getD 0)).sum /
        ((nodes.filter (isActive now)).length : ℚ) ∧
    (updatePromMetrics now nodes s).avgBuffersGauge =
      ((nodes.filter (isActive now)).map (fun n => n.metrics.avgBuffers.getD 0)).sum /
        ((nodes.filter (isActive now)).length : ℚ) ∧
    (updatePromMetrics now nodes s).avgBufferTimeGauge =
      ((nodes.filter (isActive now)).map (fun n => n.metrics.avgBufferTime.getD 0)).sum /
        ((nodes.filter (isActive now)).length : ℚ) := by
  have hlen : ¬(nodes.filter (isActive now)).length = 0 := by
    simpa [List.length_eq_zero] using h
  simp only [updatePromMetrics, if_neg hlen]
  refine ⟨?_, ?_, ?_, ?_, ?_⟩ <;> trivial

/-- Witness for C7 with one active node reporting 5 clients. -/
theorem C7_cluster_snapshot_witness :
    [sampleNode].filter (isActive 1000) ≠ [] ∧
    ((updatePromMetrics 1000 [sampleNode] initPromState).totalClientsGauge =
      (([sampleNode].filter (isActive 1000)).map (fun n => n.metrics.connected.getD 0)).sum ∧
    (updatePromMetrics 1000 [sampleNode] initPromState).avgStartupGauge =
      (([sampleNode].filter (isActive 1000)).map (fun n => n.metrics.avgStartup.getD 0)).sum /
        (([sampleNode].filter (isActive 1000)).length : ℚ) ∧
    (updatePromMetrics 1000 [sampleNode] initPromState).avgBitrateGauge =
      (([sampleNode].filter (isActive 1000)).map (fun n => n.metrics.avgBitrate.getD 0)).sum /
        (([sampleNode].filter (isActive 1000)).length : ℚ) ∧
    (updatePromMetrics 1000 [sampleNode] initPromState).avgBuffersGauge =
      (([sampleNode].filter (isActive 1000)).map (fun n => n.metrics.avgBuffers.getD 0)).sum /
        (([sampleNode].filter (isActive 1000)).length : ℚ) ∧
    (updatePromMetrics 1000 [sampleNode] initPromState).avgBufferTimeGauge =
      (([sampleNode].filter (isActive 1000)).map (fun n => n.metrics.avgBufferTime.getD 0)).sum /
        (([sampleNode].filter (isActive 1000)).length : ℚ)) :=
  ⟨by decide, C7_cluster_snapshot 1000 [sampleNode] initPromState (by decide)⟩

/-- A registry holding two live nodes, used in concrete witnesses. -/
def sampleReg : RegState := { nodes := [sampleNode, staleNode], nextRef := 2 }

/-- C8: removal is idempotent — removing an already-removed node leaves the
registry unchanged — every entry for the removed identity is gone, every
other entry survives, and the survivors keep their admission order (the
remaining list is a sublist of the original). -/
theorem C8_remove_idempotent (s : RegState) (r : Nat) :
    removeNode (removeNode s r) r = removeNode s r ∧
    (∀ n ∈ (removeNode s r).nodes, n.ref ≠ r) ∧
    (∀ n ∈ s.nodes, n.ref ≠ r → n ∈ (removeNode s r).nodes) ∧
    (removeNode s r).nodes.Sublist s.nodes := by
  refine ⟨?_, ?_, ?_, ?_⟩
  · simp only [removeNode]
    rw [filter_idem]
  · intro n hn
    have := (List.mem_filter.mp hn).2
    simpa using this
  · intro n hn hr
    simp only [removeNode, List.mem_filter]
    exact ⟨hn, by simpa using hr⟩
  · exact List.filter_sublist s.nodes

/-- Witness for C8 on a concrete two-node registry. -/
theorem C8_remove_idempotent_witness :
    removeNode (removeNode sampleReg 0) 0 = removeNode sampleReg 0 ∧
    (∀ n ∈ (removeNode sampleReg 0).nodes, n.ref ≠ 0) ∧
    (∀ n ∈ sampleReg.nodes, n.ref ≠ 0 → n ∈ (removeNode sampleReg 0).nodes) ∧
    (removeNode sampleReg 0).nodes.Sublist sampleReg.nodes :=
  C8_remove_idempotent sampleReg 0

/-- C9: a report whose sender is no longer in the registry is silently
dropped — the registry is left exactly as it was, and therefore every
subsequent aggregation, at any time and from any Prometheus state,
computes the same result as if the late report had never arrived. -/
theorem C9_late_report_dropped (nodes : List CNode) (r now : Nat) (m : Metrics)
    (h : ∀ n ∈ nodes, n.ref ≠ r) :
    recordReport nodes r now m = nodes ∧
    ∀ now2 s, updatePromMetrics now2 (recordReport nodes r now m) s =
      updatePromMetrics now2 nodes s := by
  have h1 : recordReport nodes r now m = nodes := by
    unfold recordReport
    have : nodes.map
        (fun n => if n.ref = r then { n with lastReport := now, metrics := m } else n)
          = nodes.map id :=
      List.map_congr_left fun n hn => if_neg (h n hn)
    rw [this, List.map_id]
  exact ⟨h1, fun now2 s => by rw [h1]⟩

/-- Witness for C9: a report keyed to ref 5 against a registry holding only
ref 0. -/
theorem C9_late_report_dropped_witness :
    recordReport [sampleNode] 5 2000 Metrics.empty = [sampleNode] ∧
    ∀ now2 s, updatePromMetrics now2 (recordReport [sampleNode] 5 2000 Metrics.empty) s =
      updatePromMetrics now2 [sampleNode] s :=
  C9_late_report_dropped [sampleNode] 5 2000 Metrics.empty (by decide)

lemma setGaugeLabels_not_mem (g : Nat → Option ℚ) (upds : List (Nat × ℚ)) (i : Nat)
    (h : i ∉ upds.map Prod.fst) : setGaugeLabels g upds i = g i := by
  induction upds generalizing g with
  | nil => rfl
  | cons a rest ih =>
      simp only [List.map_cons, List.mem_cons, not_or] at h
      have step : setGaugeLabels g (a :: rest) =
          setGaugeLabels (fun j => if j = a.1 then some a.2 else g j) rest := rfl
      rw [step, ih _ h.2]
      exact if_neg h.1

lemma setGaugeLabels_isSome (g : Nat → Option ℚ) (upds : List (Nat × ℚ)) (i : Nat)
    (h : (g i).isSome = true) : (setGaugeLabels g upds i).isSome = true := by
  induction upds generalizing g with
  | nil => exact h
  | cons a rest ih =>
      have step : setGaugeLabels g (a :: rest) =
          setGaugeLabels (fun j => if j = a.1 then some a.2 else g j) rest := rfl
      rw [step]
      refine ih _ ?_
      by_cases hi : i = a.1 <;> simp [hi, h]

lemma map_fst_gaugePairs (f : CNode → ℚ) (l : List CNode) :
    (l.map fun n => (n.id, f n)).map Prod.fst = l.map fun n => n.id := by
  rw [List.map_map]
  rfl

/-- C10: an aggregation cycle writes the per-node pass-through gauges (CPU,
memory, per-node clients, failures) only under the ids of its active
nodes: for any id not among the active ids, all four labelled gauges are
left exactly as they were; and a label once written is never cleared or
removed — if it held a value before the cycle it still holds one after. -/
theorem C10_node_gauge_frame (now : Nat) (nodes : List CNode) (s : PromState) (i : Nat) :
    (i ∉ (nodes.filter (isActive now)).map (fun n => n.id) →
      (updatePromMetrics now nodes s).nodeCpuGauge i = s.nodeCpuGauge i ∧
      (updatePromMetrics now nodes s).nodeMemGauge i = s.nodeMemGauge i ∧
      (updatePromMetrics now nodes s).nodeClientsGauge i = s.nodeClientsGauge i ∧
      (updatePromMetrics now nodes s).nodeFailuresGauge i = s.nodeFailuresGauge i) ∧
    ((s.nodeCpuGauge i).isSome = true →
      ((updatePromMetrics now nodes s).nodeCpuGauge i).isSome = true) ∧
    ((s.nodeMemGauge i).isSome = true →
      ((updatePromMetrics now nodes s).nodeMemGauge i).isSome = true) ∧
    ((s.nodeClientsGauge i).isSome = true →
      ((updatePromMetrics now nodes s).nodeClientsGauge i).isSome = true) ∧
    ((s.nodeFailuresGauge i).isSome = true →
      ((updatePromMetrics now nodes s).nodeFailuresGauge i).isSome = true) := by
  by_cases hlen : (nodes.filter (isActive now)).length = 0
  · simp only [updatePromMetrics, if_pos hlen]
    refine ⟨fun _ => ⟨?_, ?_, ?_, ?_⟩, ?_, ?_, ?_, ?_⟩ <;>
      first
        | trivial
        | exact fun hsome => hsome
  · simp only [updatePromMetrics, if_neg hlen]
    refine ⟨fun hi => ?_, ?_, ?_, ?_, ?_⟩
    · refine ⟨?_, ?_, ?_, ?_⟩ <;>
        · show setGaugeLabels _ _ i = _
          refine setGaugeLabels_not_mem _ _ i ?_
          rw [map_fst_gaugePairs]
          exact hi
    all_goals
      intro hsome
      show (setGaugeLabels _ _ i).isSome = true
      exact setGaugeLabels_isSome _ _ i hsome

/-- Witness for C10: a cycle whose only active node has id 1 leaves the
gauges labelled 2 untouched. -/
theorem C10_node_gauge_frame_witness :
    2 ∉ ([sampleNode].filter (isActive 1000)).map (fun n => n.id) ∧
    ((updatePromMetrics 1000 [sampleNode] initPromState).nodeCpuGauge 2 =
        initPromState.nodeCpuGauge 2 ∧
      (updatePromMetrics 1000 [sampleNode] initPromState).nodeMemGauge 2 =
        initPromState.nodeMemGauge 2 ∧
      (updatePromMetrics 1000 [sampleNode] initPromState).nodeClientsGauge 2 =
        initPromState.nodeClientsGauge 2 ∧
      (updatePromMetrics 1000 [sampleNode] initPromState).nodeFailuresGauge 2 =
        initPromState.nodeFailuresGauge 2) :=
  ⟨by decide,
    (C10_node_gauge_frame 1000 [sampleNode] initPromState 2).1 (by decide)⟩

end WebrtcTest
